import Mathlib

/-!
Verification development for the pg-mcp repository: a shallow embedding of
the configuration store (`src/config.ts`, class `ConfigManager`), the
connection pool (`src/sqlPool.ts`, class `SqlPool`) and the orchestration
helpers of `src/index.ts` (`getDatabasesInfo`, `resolveDatabaseName`,
`redactCredentials` and the tool handlers), together with theorems settling
the specification claims about them.

Conventions of the embedding:
* JavaScript numbers that carry configuration data (the `ttl` field) are
  modelled as rationals `ℚ`, which captures that the zod schema
  `z.number().min(0)` accepts non-integer values; timestamps and the pool's
  millisecond TTL are natural numbers.
* The JSON backing file is modelled by an idealized `Json` value
  (`Option Json`, `none` standing for a missing file / ENOENT); the
  text-serialization layer (`JSON.stringify` / `JSON.parse`) is the identity
  on this representation, and the write-tmp-then-rename discipline is
  abstracted into a single file replacement.
* Exceptions become `Except String` results; functions that in TypeScript
  mutate `this` take and return explicit state.  Error message texts are
  abridged (quotes dropped) but keep the parts the claims rely on, such as
  the list of known database names.
-/

/-- Idealized JSON values: the shapes produced by `JSON.parse` that the
configuration code can encounter. -/
inductive Json where
  | str (s : String)
  | num (q : ℚ)
  | bool (b : Bool)
  | null
  | arr (xs : List Json)
  | obj (fields : List (String × Json))
deriving Repr

/-- First-match lookup in an association list with string keys; this models
JavaScript object property access `o[k]` (property keys are unique in any
object produced by `JSON.parse` or by the code here). -/
def lookupStr {α : Type} : List (String × α) → String → Option α
  | [], _ => none
  | kv :: rest, k => if kv.1 = k then some kv.2 else lookupStr rest k

/-- The parsed form of one configured database, `type DbEntry` of
`src/config.ts`: `z.object \x7b url: z.string(), ttl: z.number().min(0).default(60000) \x7d`. -/
structure DbEntry where
  url : String
  ttl : ℚ
deriving DecidableEq, Repr

/-- The parsed configuration, `type Config` of `src/config.ts`:
`z.object \x7b databases: z.record(DbEntrySchema), autoReload: z.boolean().default(false) \x7d`.
The record is modelled as an association list from name to entry. -/
structure Config where
  databases : List (String × DbEntry)
  autoReload : Bool
deriving DecidableEq, Repr

/-- Validation of the `ttl` field of `DbEntrySchema`
(`z.number().min(0).default(60000)`): absent means the default `60000`;
present values must be numbers that are at least `0`. -/
def parseTtl : Option Json → Option ℚ
  | none => some 60000
  | some (.num q) => if 0 ≤ q then some q else none
  | some _ => none

/-- `DbEntrySchema.safeParse` on a JSON value: an object whose `url` field is
a string (any string) and whose `ttl` field passes `parseTtl`. -/
def parseDbEntry (j : Json) : Option DbEntry :=
  match j with
  | .obj fields =>
    match lookupStr fields "url" with
    | some (.str u) =>
      match parseTtl (lookupStr fields "ttl") with
      | some t => some { url := u, ttl := t }
      | none => none
    | _ => none
  | _ => none

/-- `z.record(DbEntrySchema)` applied to the field list of a JSON object:
every value must parse as a `DbEntry`. -/
def parseDbRecord : List (String × Json) → Option (List (String × DbEntry))
  | [] => some []
  | (k, v) :: rest =>
    match parseDbEntry v with
    | some e =>
      match parseDbRecord rest with
      | some es => some ((k, e) :: es)
      | none => none
    | none => none

/-- `ConfigSchema.safeParse` on a JSON value: `databases` must be an object
of `DbEntry` values; `autoReload` defaults to `false` when absent and must
be a boolean when present. -/
def parseConfig (j : Json) : Option Config :=
  match j with
  | .obj fields =>
    match lookupStr fields "databases" with
    | some (.obj dbs) =>
      match parseDbRecord dbs with
      | some d =>
        match lookupStr fields "autoReload" with
        | some (.bool b) => some { databases := d, autoReload := b }
        | none => some { databases := d, autoReload := false }
        | some _ => none
      | none => none
    | _ => none
  | _ => none

/-- `DbEntrySchema.safeParse` applied to an in-memory `DbEntry` value: the
`url` is already a string, so only the `min(0)` bound on `ttl` can fail. -/
def validateDbEntry (e : DbEntry) : Bool :=
  decide (0 ≤ e.ttl)

/-- `ConfigSchema.safeParse` applied to an in-memory `Config` value. -/
def validateConfig (c : Config) : Bool :=
  c.databases.all fun nd => validateDbEntry nd.2

/-- `JSON.stringify` of a `DbEntry` (as a `Json` value). -/
def DbEntry.toJson (e : DbEntry) : Json :=
  .obj [("url", .str e.url), ("ttl", .num e.ttl)]

/-- `JSON.stringify` of a `Config` (as a `Json` value). -/
def Config.toJson (c : Config) : Json :=
  .obj [("databases", .obj (c.databases.map fun nd => (nd.1, nd.2.toJson))),
        ("autoReload", .bool c.autoReload)]

/-- `ConfigManager.saveConfig`: validate, then atomically replace the
backing file with the serialized configuration.  On validation failure the
file is untouched (the caller keeps the old file state). -/
def saveConfig (c : Config) : Except String (Option Json) :=
  if validateConfig c then .ok (some c.toJson) else .error "Invalid config"

/-- `ConfigManager.loadConfig`: read and schema-validate the backing file.
When the file is missing (ENOENT) it synthesizes a default configuration —
one entry named `default` from the `POSTGRES_URL` environment value when
that is set, else an empty record — with `autoReload := true`, persists it,
and returns it.  Returns the configuration together with the resulting file
state. -/
def loadConfig (pgUrl : Option String) (file : Option Json) :
    Except String (Config × Option Json) :=
  match file with
  | some j =>
    match parseConfig j with
    | some c => .ok (c, some j)
    | none => .error "Invalid config"
  | none =>
    let dbs : List (String × DbEntry) :=
      match pgUrl with
      | some u => [("default", { url := u, ttl := 60000 })]
      | none => []
    let c : Config := { databases := dbs, autoReload := true }
    match saveConfig c with
    | .ok f => .ok (c, f)
    | .error e => .error e

/-- A `Partial<DbEntry>` update object as built by the `pg_db_update`
handler: keys are present only when the caller supplied them. -/
structure DbEntryPatch where
  url : Option String
  ttl : Option ℚ
deriving DecidableEq, Repr

/-- The spread merge `\x7b ...existing, ...update \x7d` of
`ConfigManager.updateDatabase`, for patches whose absent fields are truly
absent (as built by `pg_db_update`). -/
def mergePatch (e : DbEntry) (p : DbEntryPatch) : DbEntry :=
  { url := p.url.getD e.url, ttl := p.ttl.getD e.ttl }

/-- Assignment `config.databases[name] = v` on the association-list model:
the entry at `name` is replaced, all other entries are untouched and keep
their positions. -/
def listSet (l : List (String × DbEntry)) (name : String) (v : DbEntry) :
    List (String × DbEntry) :=
  l.map fun kv => if kv.1 = name then (name, v) else kv

/-- `ConfigManager.updateDatabase`: load, fail when the name is unknown,
merge the patch onto the existing entry, re-validate the merged entry, store
it and save.  The second component is the backing-file state after the call
(unchanged on every failure path except the ENOENT default-file creation
inside `loadConfig`). -/
def updateDatabase (pgUrl : Option String) (name : String) (p : DbEntryPatch)
    (file : Option Json) : Except String Unit × Option Json :=
  match loadConfig pgUrl file with
  | .error e => (.error e, file)
  | .ok (c, file1) =>
    match lookupStr c.databases name with
    | none => (.error ("Database name " ++ name ++ " not found"), file1)
    | some e =>
      let updated := mergePatch e p
      if validateDbEntry updated then
        match saveConfig { c with databases := listSet c.databases name updated } with
        | .ok f2 => (.ok (), f2)
        | .error msg => (.error msg, file1)
      else (.error "Invalid updated database config", file1)

/-!
Model of the external WHATWG `URL` class used by `redactCredentials` in
`src/index.ts`.  This is library code, not repository code; it is modelled
by a simplified parser: `scheme "://" [user [":" password] "@"] hostport tail`
where `tail` is everything from the first `/` after the authority on.  A
string with no `://` after a well-formed scheme fails to parse, matching
`new URL(...)` throwing for such inputs.
-/

/-- URL components relevant to credential redaction. -/
structure UrlParts where
  scheme : String
  username : String
  password : String
  hostport : String
  tail : String
deriving DecidableEq, Repr

/-- Characters allowed in a URL scheme. -/
def isSchemeChar (ch : Char) : Bool :=
  ch.isAlphanum || ch == '+' || ch == '-' || ch == '.'

/-- Whether the second list is a leading segment of the first. -/
def charsStartWith : List Char → List Char → Bool
  | _, [] => true
  | [], _ :: _ => false
  | c :: cs, d :: ds => c == d && charsStartWith cs ds

/-- Splits a character list at the first occurrence of the pattern,
returning the part before it and the part after it. -/
def breakOnSub (pat : List Char) : List Char → Option (List Char × List Char)
  | [] => if pat.isEmpty then some ([], []) else none
  | c :: cs =>
    if charsStartWith (c :: cs) pat then some ([], (c :: cs).drop pat.length)
    else
      match breakOnSub pat cs with
      | some (pre, post) => some (c :: pre, post)
      | none => none

/-- Splits a character list at the last occurrence of the separator. -/
def splitLastChar (sep : Char) : List Char → Option (List Char × List Char)
  | [] => none
  | c :: rest =>
    match splitLastChar sep rest with
    | some (pre, post) => some (c :: pre, post)
    | none => if c == sep then some ([], rest) else none

/-- Parses a URL string into its components (model of `new URL(s)`;
`none` models the constructor throwing). -/
def parseURL (s : String) : Option UrlParts :=
  match breakOnSub "://".data s.data with
  | none => none
  | some (schemeChars, restChars) =>
    if schemeChars.isEmpty || !schemeChars.all isSchemeChar then none
    else
      let authority := restChars.takeWhile fun ch => ch != '/'
      let tail := restChars.drop authority.length
      let (userinfo, hostport) :=
        match splitLastChar '@' authority with
        | some (ui, hp) => (ui, hp)
        | none => ([], authority)
      let username := userinfo.takeWhile fun ch => ch != ':'
      let password :=
        if username.length = userinfo.length then []
        else userinfo.drop (username.length + 1)
      some { scheme := ⟨schemeChars⟩, username := ⟨username⟩,
             password := ⟨password⟩, hostport := ⟨hostport⟩, tail := ⟨tail⟩ }

/-- Serializes URL components back to a string (model of `urlObj.toString()`). -/
def UrlParts.toUrlString (u : UrlParts) : String :=
  u.scheme ++ "://" ++
    (if u.username == "" && u.password == "" then "" else
      u.username ++ (if u.password == "" then "" else ":" ++ u.password) ++ "@") ++
    u.hostport ++ u.tail

/-- `redactCredentials` of `src/index.ts`: parse the URL; when it has a
non-empty password, replace the password with `***` and serialize; when the
password is empty or parsing fails, return the input unchanged. -/
def redactCredentials (url : String) : String :=
  match parseURL url with
  | some u =>
    if u.password != "" then UrlParts.toUrlString { u with password := "***" }
    else url
  | none => url

/-!
Orchestration helpers of `src/index.ts`.
-/

/-- Result of `getDatabasesInfo` in `src/index.ts` (the `dbList` field is the
configuration itself and is omitted). -/
structure DatabasesInfo where
  dbNames : List String
  defaultDbName : Option String
  singleDb : Bool
deriving Repr

/-- `getDatabasesInfo` of `src/index.ts`.  The source computes
`dbNames.find((name) => name === config.defaultDatabase) || dbNames.at(0)`;
`defaultDatabase` is not a field of `Config` (the schema has only
`databases` and `autoReload`), so in JavaScript it is `undefined`, the
`find` never matches, and the fallback `dbNames.at(0)` always applies. -/
def getDatabasesInfo (cfg : Config) : DatabasesInfo :=
  let dbNames := cfg.databases.map Prod.fst
  { dbNames := dbNames
    defaultDbName := (dbNames.find? fun _ => false).orElse fun _ => dbNames.head?
    singleDb := dbNames.length == 1 }

/-- Error message of `resolveDatabaseName` when no database is configured. -/
def noDbMsg : String :=
  "No databases are configured. Please add a database configuration first."

/-- Error message of `resolveDatabaseName` naming every configured
database. -/
def multiDbMsg (dbNames : List String) : String :=
  "Multiple databases are configured: " ++ String.intercalate ", " dbNames ++
    ". Please specify the database using the database parameter."

/-- `resolveDatabaseName` of `src/index.ts`: `database ?? defaultDbName`,
then the JavaScript truthiness check `if (!name)` (which also fires for the
empty string) guarding the two error messages. -/
def resolveDatabaseName (cfg : Config) (database : Option String) :
    Except String String :=
  let info := getDatabasesInfo cfg
  let err : Except String String :=
    if info.dbNames.length = 0 then .error noDbMsg
    else .error (multiDbMsg info.dbNames)
  match database.orElse fun _ => info.defaultDbName with
  | none => err
  | some s => if s = "" then err else .ok s

/-- `ConfigManager.getConfig` restricted to an already-loaded configuration:
name lookup with the enumerate-known-names error, plus the re-validation of
the found entry. -/
def getConfigEntry (cfg : Config) (name : String) : Except String DbEntry :=
  match lookupStr cfg.databases name with
  | some db =>
    if validateDbEntry db then .ok db else .error "Invalid database config"
  | none =>
    if cfg.databases.length = 0 then .error noDbMsg
    else .error ("Database " ++ name ++ " not found. Available databases: " ++
      String.intercalate ", " (cfg.databases.map Prod.fst))

/-- The `get_url` tool handler of `src/index.ts`: resolve the name, fetch the
entry, and return its URL passed through `redactCredentials`. -/
def getUrlTool (cfg : Config) (database : Option String) : Except String String :=
  match resolveDatabaseName cfg database with
  | .ok name => (getConfigEntry cfg name).map fun e => redactCredentials e.url
  | .error e => .error e

/-- The `pg_db_list` tool handler of `src/index.ts`: every configured entry
as name, URL passed through `redactCredentials`, and ttl. -/
def pgDbListTool (cfg : Config) : List (String × String × ℚ) :=
  cfg.databases.map fun nd => (nd.1, redactCredentials nd.2.url, nd.2.ttl)

/-!
The connection pool, class `SqlPool` of `src/sqlPool.ts`.  Pool keys are the
strings passed to `get` — the tool handlers pass the connection URL.  The
external world is modelled by `World`: `constructOk` says whether
`new SQL(key)` throws for this key, `live` says whether a round-trip query
against this key would succeed (nothing in the source consults `live`; it
exists so that the specification's liveness-probe behaviour can be stated
and compared).  `Date.now()` values are passed explicitly.  Client handles
are allocated from a counter `nextClient`, so distinct constructions give
distinct handles; clients whose `end()` was called are collected in
`closed`.
-/

/-- A failure to obtain a client (construction or probe). -/
inductive PoolErr where
  | connectionFailure
deriving DecidableEq, Repr

/-- One pool entry: the interface `PoolEntry` of `src/sqlPool.ts`. -/
structure PoolEntry where
  client : Nat
  lastUsed : Nat
deriving DecidableEq, Repr

/-- External environment of the pool. -/
structure World where
  constructOk : String → Bool
  live : String → Bool

/-- The state of a `SqlPool` instance, plus the bookkeeping fields
`nextClient` and `closed` of the handle model. -/
structure SqlPool where
  pool : List (String × PoolEntry)
  ttl : Nat
  nextClient : Nat
  closed : List Nat
deriving DecidableEq, Repr

/-- The constructor `new SqlPool(ttlMs = 60000)`. -/
def SqlPool.make (ttlMs : Nat := 60000) : SqlPool :=
  { pool := [], ttl := ttlMs, nextClient := 0, closed := [] }

/-- `SqlPool.setTTL`. -/
def SqlPool.setTTL (s : SqlPool) (ttlMs : Nat) : SqlPool :=
  { s with ttl := ttlMs }

/-- `SqlPool.get`: on a hit, refresh `lastUsed` and return the cached
client; on a miss, construct a client (`new SQL(database)`) and insert the
entry.  When construction throws, the exception propagates and the pool map
is untouched (the insertion follows the construction in the source). -/
def SqlPool.get (w : World) (now : Nat) (database : String) (s : SqlPool) :
    Except PoolErr Nat × SqlPool :=
  match lookupStr s.pool database with
  | some entry =>
    (.ok entry.client,
      { s with pool := s.pool.map fun kv =>
          if kv.1 = database then (kv.1, { kv.2 with lastUsed := now }) else kv })
  | none =>
    if w.constructOk database then
      (.ok s.nextClient,
        { s with pool := s.pool ++ [(database, { client := s.nextClient, lastUsed := now })],
                 nextClient := s.nextClient + 1 })
    else (.error .connectionFailure, s)

/-- Modelled from the spec (for comparison with the source's `SqlPool.get`,
which it does not match): on a miss, construct the client, run a cheap
liveness probe, and only insert the entry when construction and probe both
succeed; otherwise fail `ConnectionFailure` with the pool unchanged. -/
def SqlPool.getSpecWithProbe (w : World) (now : Nat) (database : String) (s : SqlPool) :
    Except PoolErr Nat × SqlPool :=
  match lookupStr s.pool database with
  | some entry =>
    (.ok entry.client,
      { s with pool := s.pool.map fun kv =>
          if kv.1 = database then (kv.1, { kv.2 with lastUsed := now }) else kv })
  | none =>
    if w.constructOk database && w.live database then
      (.ok s.nextClient,
        { s with pool := s.pool ++ [(database, { client := s.nextClient, lastUsed := now })],
                 nextClient := s.nextClient + 1 })
    else (.error .connectionFailure, s)

/-- `SqlPool.evict`: close and remove the entry when present; a no-op when
absent. -/
def SqlPool.evict (database : String) (s : SqlPool) : SqlPool :=
  match lookupStr s.pool database with
  | some entry =>
    { s with pool := s.pool.filter fun kv => kv.1 != database,
             closed := entry.client :: s.closed }
  | none => s

/-- One tick of the idle reaper started by `SqlPool.startIdleReaper`: the
source iterates over the pool and calls `evict(db)` for every entry with
`now - lastUsed > this.ttl`; since each such eviction removes exactly that
key and closes its client, the net effect of one tick is this filter.  Note
the comparison uses the pool-wide `ttl` field. -/
def SqlPool.reaperTick (now : Nat) (s : SqlPool) : SqlPool :=
  { s with
    pool := s.pool.filter fun kv => !decide (kv.2.lastUsed + s.ttl < now),
    closed := ((s.pool.filter fun kv => decide (kv.2.lastUsed + s.ttl < now)).map
                fun kv => kv.2.client) ++ s.closed }

/-- The first loop of `SqlPool.reconcile`: for each currently pooled key (the
first argument list), evict it unless it occurs among the configured URLs. -/
def SqlPool.evictStale (urls : List String) : List String → SqlPool → SqlPool
  | [], s => s
  | db :: rest, s =>
    if urls.contains db then SqlPool.evictStale urls rest s
    else SqlPool.evictStale urls rest (SqlPool.evict db s)

/-- The second loop of `SqlPool.reconcile`: for each configured URL not yet
pooled, call `get` (eager construction).  A thrown construction error
propagates, keeping the mutations made so far. -/
def SqlPool.addNew (w : World) (now : Nat) : List String → SqlPool → Option PoolErr × SqlPool
  | [], s => (none, s)
  | url :: rest, s =>
    match lookupStr s.pool url with
    | some _ => SqlPool.addNew w now rest s
    | none =>
      match SqlPool.get w now url s with
      | (.ok _, s1) => SqlPool.addNew w now rest s1
      | (.error e, s1) => (some e, s1)

/-- `SqlPool.reconcile(newConfig)`: compute the configured URLs
(`Object.values(newConfig.databases).map((db) => db.url)`), evict every
pooled key not among them, then eagerly `get` every configured URL that is
not pooled. -/
def SqlPool.reconcile (w : World) (now : Nat) (cfg : Config) (s : SqlPool) :
    Option PoolErr × SqlPool :=
  let newDatabases := cfg.databases.map fun nd => nd.2.url
  SqlPool.addNew w now newDatabases
    (SqlPool.evictStale newDatabases (s.pool.map Prod.fst) s)

/-- The pool effect of the `pg_db_update` and `pg_db_remove` tool handlers
of `src/index.ts`: `pool.evict(name)` with the database NAME, followed by
`pool.reconcile(updatedConfig)`. -/
def pgDbUpdatePoolEffect (w : World) (now : Nat) (name : String) (cfg : Config)
    (s : SqlPool) : Option PoolErr × SqlPool :=
  SqlPool.reconcile w now cfg (SqlPool.evict name s)

/-!
Helper lemmas about the configuration layer.
-/

/-- A successful lookup means the key occurs among the keys. -/
theorem lookup_some_mem_keys {α : Type} {l : List (String × α)} {k : String} {v : α}
    (h : lookupStr l k = some v) : k ∈ l.map Prod.fst := by
  induction l with
  | nil => simp [lookupStr] at h
  | cons kv rest ih =>
    rw [lookupStr] at h
    by_cases hk : kv.1 = k
    · simp [hk]
    · simp only [if_neg hk] at h
      simp [ih h]

/-- Updating the entry at one name does not change lookups at other names. -/
theorem lookupStr_listSet_other {l : List (String × DbEntry)} {name k : String}
    {v : DbEntry} (h : k ≠ name) :
    lookupStr (listSet l name v) k = lookupStr l k := by
  induction l with
  | nil => rfl
  | cons kv rest ih =>
    rw [listSet, List.map_cons, lookupStr, lookupStr]
    by_cases hkv : kv.1 = name
    · rw [if_pos hkv, if_neg (fun hc => h hc.symm), if_neg (fun hc => (h (hkv ▸ hc).symm))]
      exact ih
    · rw [if_neg hkv]
      by_cases hk : kv.1 = k
      · rw [if_pos hk, if_pos hk]
      · rw [if_neg hk, if_neg hk]
        exact ih

/-- `validateConfig` spelled out entrywise. -/
theorem validateConfig_iff {c : Config} :
    validateConfig c = true ↔ ∀ nd ∈ c.databases, 0 ≤ nd.2.ttl := by
  rw [validateConfig, List.all_eq_true]
  constructor
  · intro h nd hnd
    have := h nd hnd
    simpa [validateDbEntry] using this
  · intro h nd hnd
    simpa [validateDbEntry] using h nd hnd

/-- Replacing one entry by a valid one keeps the configuration valid. -/
theorem validateConfig_listSet {c : Config} {name : String} {v : DbEntry}
    (hc : validateConfig c = true) (hv : validateDbEntry v = true) :
    validateConfig (Config.mk (listSet c.databases name v) c.autoReload) = true := by
  rw [validateConfig_iff]
  intro nd hnd
  rw [listSet] at hnd
  rcases List.mem_map.mp hnd with ⟨kv, hkv, heq⟩
  by_cases hk : kv.1 = name
  · rw [if_pos hk] at heq
    have : nd.2 = v := by rw [← heq]
    rw [this]
    simpa [validateDbEntry] using hv
  · rw [if_neg hk] at heq
    exact validateConfig_iff.mp hc nd (heq ▸ hkv)

/-- Serialization then `DbEntrySchema` parsing restores the entry (its ttl
being nonnegative). -/
theorem parseDbEntry_toJson {e : DbEntry} (h : 0 ≤ e.ttl) :
    parseDbEntry e.toJson = some e := by
  rw [DbEntry.toJson, parseDbEntry]
  simp [lookupStr, parseTtl, h]

/-- Serialization then record parsing restores the database record. -/
theorem parseDbRecord_map {l : List (String × DbEntry)}
    (h : ∀ nd ∈ l, 0 ≤ nd.2.ttl) :
    parseDbRecord (l.map fun nd => (nd.1, nd.2.toJson)) = some l := by
  induction l with
  | nil => rfl
  | cons nd rest ih =>
    rw [List.map_cons, parseDbRecord]
    rw [parseDbEntry_toJson (h nd (List.mem_cons_self nd rest))]
    rw [ih fun x hx => h x (List.mem_cons_of_mem nd hx)]

/-- Serialization then `ConfigSchema` parsing restores a valid
configuration. -/
theorem parseConfig_toJson {c : Config} (h : validateConfig c = true) :
    parseConfig c.toJson = some c := by
  rw [Config.toJson, parseConfig]
  simp [lookupStr, parseDbRecord_map (validateConfig_iff.mp h)]

/-- Saving a valid configuration succeeds and writes its serialization. -/
theorem saveConfig_ok {c : Config} (h : validateConfig c = true) :
    saveConfig c = .ok (some c.toJson) := by
  rw [saveConfig, if_pos h]

/-- Loading a file holding a valid serialized configuration returns it and
leaves the file as is. -/
theorem loadConfig_toJson {c : Config} (h : validateConfig c = true)
    (pg : Option String) :
    loadConfig pg (some c.toJson) = .ok (c, some c.toJson) := by
  rw [loadConfig, parseConfig_toJson h]

/-- C1: evaluation of `resolveDatabaseName` at the failing input.  With two
databases configured (`a` and `b`) and no requested name, the source's
`defaultDbName` computation falls back to `dbNames.at(0)`, so the function
silently returns the first configured name instead of failing with the
multiple-databases error that the claim (and the repository README) require;
that error branch is unreachable for a nonempty configuration. -/
theorem resolveDatabaseName_two_configured_returns_first :
    resolveDatabaseName
      (Config.mk [("a", DbEntry.mk "postgres://h/a" 60000),
                  ("b", DbEntry.mk "postgres://h/b" 60000)] false) none = .ok "a" ∧
    (getDatabasesInfo
      (Config.mk [("a", DbEntry.mk "postgres://h/a" 60000),
                  ("b", DbEntry.mk "postgres://h/b" 60000)] false)).dbNames = ["a", "b"] :=
  ⟨rfl, rfl⟩

/-- C5 counterexample: `DbEntrySchema` accepts a descriptor whose URL does
not parse as a URL and whose ttl is `0`, and accepts a non-integer ttl
(`1/2`, whose denominator is `2`); a configuration containing such
descriptors passes validation, is saved successfully, and loads back —
contradicting the claim that such configurations are rejected. -/
theorem schema_accepts_nonurl_and_zero_ttl :
    validateDbEntry (DbEntry.mk "not a url" (mkRat 1 2)) = true ∧
    parseURL "not a url" = none ∧
    (mkRat 1 2).den = 2 ∧
    validateDbEntry (DbEntry.mk "postgres://h/d" 0) = true ∧
    saveConfig (Config.mk [("bad", DbEntry.mk "not a url" (mkRat 1 2)),
                           ("zero", DbEntry.mk "postgres://h/d" 0)] false) =
      .ok (some (Config.toJson (Config.mk [("bad", DbEntry.mk "not a url" (mkRat 1 2)),
                                           ("zero", DbEntry.mk "postgres://h/d" 0)] false))) ∧
    loadConfig none
        (some (Config.toJson (Config.mk [("bad", DbEntry.mk "not a url" (mkRat 1 2)),
                                         ("zero", DbEntry.mk "postgres://h/d" 0)] false))) =
      .ok (Config.mk [("bad", DbEntry.mk "not a url" (mkRat 1 2)),
                      ("zero", DbEntry.mk "postgres://h/d" 0)] false,
           some (Config.toJson (Config.mk [("bad", DbEntry.mk "not a url" (mkRat 1 2)),
                                           ("zero", DbEntry.mk "postgres://h/d" 0)] false))) :=
  ⟨by decide, by decide, by decide, by decide, rfl, rfl⟩

/-- C5 (amended): schema validation only constrains the ttl to be a number
that is at least 0 (defaulting to 60000 when absent) and the URL to be a
string; any configuration whose ttls are all nonnegative — URL strings and
zero or fractional ttls included — validates, saves and loads back, while a
configuration containing a negative ttl fails validation and `saveConfig`
rejects it with the invalid-config error. -/
theorem dbEntrySchema_characterization (c c2 : Config) (pg : Option String)
    (hvalid : ∀ nd ∈ c.databases, 0 ≤ nd.2.ttl)
    (hneg : ∃ nd ∈ c2.databases, nd.2.ttl < 0) :
    validateConfig c = true ∧
    saveConfig c = .ok (some c.toJson) ∧
    loadConfig pg (some c.toJson) = .ok (c, some c.toJson) ∧
    validateConfig c2 = false ∧
    saveConfig c2 = .error "Invalid config" ∧
    parseTtl none = some 60000 := by
  have hc : validateConfig c = true := validateConfig_iff.mpr hvalid
  have hc2 : validateConfig c2 = false := by
    rcases hneg with ⟨nd, hnd, hlt⟩
    cases hb : validateConfig c2 with
    | false => rfl
    | true => exact absurd (validateConfig_iff.mp hb nd hnd) (not_le.mpr hlt)
  refine ⟨hc, saveConfig_ok hc, loadConfig_toJson hc pg, hc2, ?_, rfl⟩
  rw [saveConfig, hc2]
  rfl

/-- C5 witness: the amended characterization applied to a configuration with
a non-URL url and fractional and zero ttls, and to one with a negative ttl. -/
theorem dbEntrySchema_characterization_witness :
    (∀ nd ∈ (Config.mk [("bad", DbEntry.mk "not a url" (mkRat 1 2)),
                        ("zero", DbEntry.mk "postgres://h/d" 0)] false).databases,
        0 ≤ nd.2.ttl) ∧
    (∃ nd ∈ (Config.mk [("neg", DbEntry.mk "postgres://h/d" (-1))] true).databases,
        nd.2.ttl < 0) ∧
    (validateConfig (Config.mk [("bad", DbEntry.mk "not a url" (mkRat 1 2)),
                                ("zero", DbEntry.mk "postgres://h/d" 0)] false) = true ∧
     validateConfig (Config.mk [("neg", DbEntry.mk "postgres://h/d" (-1))] true) = false ∧
     saveConfig (Config.mk [("neg", DbEntry.mk "postgres://h/d" (-1))] true) =
       .error "Invalid config") := by
  refine ⟨by decide, by decide, ?_⟩
  have h := dbEntrySchema_characterization
    (Config.mk [("bad", DbEntry.mk "not a url" (mkRat 1 2)),
                ("zero", DbEntry.mk "postgres://h/d" 0)] false)
    (Config.mk [("neg", DbEntry.mk "postgres://h/d" (-1))] true)
    none (by decide) (by decide)
  exact ⟨h.1, h.2.2.2.1, h.2.2.2.2.1⟩

/-- C7: the round-trip law.  Saving a valid configuration writes its
serialization, and loading that file returns an equal configuration (with
the file untouched). -/
theorem saveConfig_then_loadConfig_roundtrip (c : Config) (pg : Option String)
    (h : validateConfig c = true) :
    saveConfig c = .ok (some c.toJson) ∧
    loadConfig pg (some c.toJson) = .ok (c, some c.toJson) :=
  ⟨saveConfig_ok h, loadConfig_toJson h pg⟩

/-- C7 witness: the round trip at a concrete two-entry configuration. -/
theorem saveConfig_then_loadConfig_roundtrip_witness :
    validateConfig (Config.mk [("a", DbEntry.mk "postgres://h/a" 60000),
                               ("b", DbEntry.mk "postgres://h/b" 30000)] true) = true ∧
    (saveConfig (Config.mk [("a", DbEntry.mk "postgres://h/a" 60000),
                            ("b", DbEntry.mk "postgres://h/b" 30000)] true) =
       .ok (some (Config.toJson (Config.mk [("a", DbEntry.mk "postgres://h/a" 60000),
                                            ("b", DbEntry.mk "postgres://h/b" 30000)] true))) ∧
     loadConfig none
         (some (Config.toJson (Config.mk [("a", DbEntry.mk "postgres://h/a" 60000),
                                          ("b", DbEntry.mk "postgres://h/b" 30000)] true))) =
       .ok (Config.mk [("a", DbEntry.mk "postgres://h/a" 60000),
                       ("b", DbEntry.mk "postgres://h/b" 30000)] true,
            some (Config.toJson (Config.mk [("a", DbEntry.mk "postgres://h/a" 60000),
                                            ("b", DbEntry.mk "postgres://h/b" 30000)] true)))) :=
  ⟨by decide,
   saveConfig_then_loadConfig_roundtrip
     (Config.mk [("a", DbEntry.mk "postgres://h/a" 60000),
                 ("b", DbEntry.mk "postgres://h/b" 30000)] true) none (by decide)⟩

/-- C8: `updateDatabase` with a ttl-only patch succeeds, replaces only that
descriptor's ttl while preserving its URL and every other descriptor
(lookups at every other name are unchanged), and writes exactly the updated
configuration; on a name absent from the stored configuration it fails with
the not-found error and the backing file is unchanged. -/
theorem updateDatabase_ttl_frame (c : Config) (pg : Option String)
    (name name2 : String) (e : DbEntry) (X : ℚ) (p2 : DbEntryPatch)
    (hc : validateConfig c = true)
    (hfound : lookupStr c.databases name = some e)
    (hX : 0 ≤ X)
    (habsent : lookupStr c.databases name2 = none) :
    updateDatabase pg name (DbEntryPatch.mk none (some X)) (some c.toJson) =
      (.ok (),
       some (Config.toJson
         (Config.mk (listSet c.databases name (DbEntry.mk e.url X)) c.autoReload))) ∧
    (∀ k, k ≠ name →
      lookupStr (listSet c.databases name (DbEntry.mk e.url X)) k =
        lookupStr c.databases k) ∧
    updateDatabase pg name2 p2 (some c.toJson) =
      (.error ("Database name " ++ name2 ++ " not found"), some c.toJson) := by
  have hmerge : mergePatch e (DbEntryPatch.mk none (some X)) = DbEntry.mk e.url X := rfl
  have hve : validateDbEntry (DbEntry.mk e.url X) = true := by
    simpa [validateDbEntry] using hX
  refine ⟨?_, fun k hk => lookupStr_listSet_other hk, ?_⟩
  · simp only [updateDatabase, loadConfig_toJson hc pg, hfound, hmerge, hve, if_true,
      saveConfig_ok (validateConfig_listSet hc hve)]
  · simp only [updateDatabase, loadConfig_toJson hc pg, habsent]

/-- C8 witness: the frame property at a concrete two-entry configuration,
updating the ttl of `a` to 5 and failing on the unknown name `zz`. -/
theorem updateDatabase_ttl_frame_witness :
    (validateConfig (Config.mk [("a", DbEntry.mk "postgres://h/a" 1),
                                ("b", DbEntry.mk "postgres://h/b" 2)] true) = true ∧
     lookupStr (Config.mk [("a", DbEntry.mk "postgres://h/a" 1),
                           ("b", DbEntry.mk "postgres://h/b" 2)] true).databases "a" =
       some (DbEntry.mk "postgres://h/a" 1) ∧
     (0 : ℚ) ≤ 5 ∧
     lookupStr (Config.mk [("a", DbEntry.mk "postgres://h/a" 1),
                           ("b", DbEntry.mk "postgres://h/b" 2)] true).databases "zz" = none) ∧
    (updateDatabase none "a" (DbEntryPatch.mk none (some 5))
        (some (Config.toJson (Config.mk [("a", DbEntry.mk "postgres://h/a" 1),
                                         ("b", DbEntry.mk "postgres://h/b" 2)] true))) =
      (.ok (),
       some (Config.toJson
         (Config.mk (listSet (Config.mk [("a", DbEntry.mk "postgres://h/a" 1),
                                         ("b", DbEntry.mk "postgres://h/b" 2)] true).databases
                        "a" (DbEntry.mk "postgres://h/a" 5)) true))) ∧
     updateDatabase none "zz" (DbEntryPatch.mk none none)
        (some (Config.toJson (Config.mk [("a", DbEntry.mk "postgres://h/a" 1),
                                         ("b", DbEntry.mk "postgres://h/b" 2)] true))) =
      (.error ("Database name " ++ "zz" ++ " not found"),
       some (Config.toJson (Config.mk [("a", DbEntry.mk "postgres://h/a" 1),
                                       ("b", DbEntry.mk "postgres://h/b" 2)] true)))) := by
  refine ⟨⟨by decide, by decide, by decide, by decide⟩, ?_⟩
  have h := updateDatabase_ttl_frame
    (Config.mk [("a", DbEntry.mk "postgres://h/a" 1),
                ("b", DbEntry.mk "postgres://h/b" 2)] true)
    none "a" "zz" (DbEntry.mk "postgres://h/a" 1) 5 (DbEntryPatch.mk none none)
    (by decide) (by decide) (by decide) (by decide)
  exact ⟨h.1, h.2.2⟩

/-!
Helper lemmas about the pool.
-/

/-- Appending entries does not disturb a successful lookup. -/
theorem lookupStr_append_of_some {α : Type} {l l2 : List (String × α)} {k : String}
    {v : α} (h : lookupStr l k = some v) : lookupStr (l ++ l2) k = some v := by
  induction l with
  | nil => simp [lookupStr] at h
  | cons kv rest ih =>
    rw [List.cons_append, lookupStr]
    rw [lookupStr] at h
    by_cases hk : kv.1 = k
    · rwa [if_pos hk] at h ⊢
    · rw [if_neg hk] at h ⊢
      exact ih h

/-- When the key is absent from the front list, lookup continues in the
appended one. -/
theorem lookupStr_append_of_none {α : Type} {l l2 : List (String × α)} {k : String}
    (h : lookupStr l k = none) : lookupStr (l ++ l2) k = lookupStr l2 k := by
  induction l with
  | nil => rfl
  | cons kv rest ih =>
    rw [List.cons_append, lookupStr]
    rw [lookupStr] at h
    by_cases hk : kv.1 = k
    · rw [if_pos hk] at h
      exact absurd h (by simp)
    · rw [if_neg hk] at h ⊢
      exact ih h

/-- Filtering out one key makes its lookup fail. -/
theorem lookupStr_filter_self {α : Type} (l : List (String × α)) (db : String) :
    lookupStr (l.filter fun kv => kv.1 != db) db = none := by
  induction l with
  | nil => rfl
  | cons kv rest ih =>
    rw [List.filter_cons]
    by_cases hk : kv.1 = db
    · rw [if_neg (by simp [hk])]
      exact ih
    · rw [if_pos (by simp [hk]), lookupStr, if_neg hk]
      exact ih

/-- Filtering out one key leaves lookups at other keys unchanged. -/
theorem lookupStr_filter_other {α : Type} {l : List (String × α)} {db k : String}
    (h : k ≠ db) :
    lookupStr (l.filter fun kv => kv.1 != db) k = lookupStr l k := by
  induction l with
  | nil => rfl
  | cons kv rest ih =>
    rw [List.filter_cons]
    by_cases hdb : kv.1 = db
    · rw [if_neg (by simp [hdb])]
      rw [ih]
      have hkvk : ¬ kv.1 = k := fun hc => h (hc.symm.trans hdb)
      conv_rhs => rw [lookupStr, if_neg hkvk]
    · rw [if_pos (by simp [hdb]), lookupStr]
      conv_rhs => rw [lookupStr]
      by_cases hk : kv.1 = k
      · rw [if_pos hk, if_pos hk]
      · rw [if_neg hk, if_neg hk]
        exact ih

/-- Evicting a key removes it from the pool. -/
theorem evict_lookup_self (db : String) (s : SqlPool) :
    lookupStr (SqlPool.evict db s).pool db = none := by
  rw [SqlPool.evict]
  cases h : lookupStr s.pool db with
  | none => exact h
  | some e => exact lookupStr_filter_self s.pool db

/-- Evicting one key leaves entries at other keys unchanged. -/
theorem evict_lookup_other {db k : String} (s : SqlPool) (h : k ≠ db) :
    lookupStr (SqlPool.evict db s).pool k = lookupStr s.pool k := by
  rw [SqlPool.evict]
  cases hdb : lookupStr s.pool db with
  | none => rfl
  | some e => exact lookupStr_filter_other h

/-- Eviction never forgets an already-closed client. -/
theorem evict_closed_mono {x : Nat} {s : SqlPool} (db : String) (h : x ∈ s.closed) :
    x ∈ (SqlPool.evict db s).closed := by
  rw [SqlPool.evict]
  cases hdb : lookupStr s.pool db with
  | none => exact h
  | some e => exact List.mem_cons_of_mem _ h

/-- Evicting a pooled key closes its client. -/
theorem evict_closed_self {db : String} {s : SqlPool} {e : PoolEntry}
    (h : lookupStr s.pool db = some e) :
    e.client ∈ (SqlPool.evict db s).closed := by
  rw [SqlPool.evict, h]
  exact List.mem_cons_self _ _

/-- The eviction loop of `reconcile` never adds entries: an absent key stays
absent. -/
theorem evictStale_lookup_none {urls : List String} {k : String} :
    ∀ {ks : List String} {s : SqlPool}, lookupStr s.pool k = none →
      lookupStr (SqlPool.evictStale urls ks s).pool k = none := by
  intro ks
  induction ks with
  | nil => exact fun h => h
  | cons db rest ih =>
    intro s h
    rw [SqlPool.evictStale]
    by_cases hc : urls.contains db
    · rw [if_pos hc]
      exact ih h
    · rw [if_neg hc]
      apply ih
      by_cases hk : k = db
      · exact hk ▸ evict_lookup_self db s
      · rw [evict_lookup_other s hk]
        exact h

/-- The eviction loop never forgets an already-closed client. -/
theorem evictStale_closed_mono {urls : List String} {x : Nat} :
    ∀ {ks : List String} {s : SqlPool}, x ∈ s.closed →
      x ∈ (SqlPool.evictStale urls ks s).closed := by
  intro ks
  induction ks with
  | nil => exact fun h => h
  | cons db rest ih =>
    intro s h
    rw [SqlPool.evictStale]
    by_cases hc : urls.contains db
    · rw [if_pos hc]
      exact ih h
    · rw [if_neg hc]
      exact ih (evict_closed_mono db h)

/-- The eviction loop leaves entries whose key is among the configured URLs
untouched. -/
theorem evictStale_lookup_in_urls {urls : List String} {k : String} (hk : k ∈ urls) :
    ∀ {ks : List String} (s : SqlPool),
      lookupStr (SqlPool.evictStale urls ks s).pool k = lookupStr s.pool k := by
  intro ks
  induction ks with
  | nil => exact fun s => rfl
  | cons db rest ih =>
    intro s
    rw [SqlPool.evictStale]
    by_cases hc : urls.contains db
    · rw [if_pos hc]
      exact ih s
    · rw [if_neg hc]
      have hne : k ≠ db := by
        rintro rfl
        exact hc (List.elem_eq_true_of_mem hk)
      rw [ih (SqlPool.evict db s), evict_lookup_other s hne]

/-- The eviction loop evicts every iterated key that is not among the
configured URLs, closing its client. -/
theorem evictStale_evicts {urls : List String} {k : String} {e : PoolEntry}
    (hk : k ∉ urls) :
    ∀ {ks : List String} {s : SqlPool}, k ∈ ks → lookupStr s.pool k = some e →
      lookupStr (SqlPool.evictStale urls ks s).pool k = none ∧
      e.client ∈ (SqlPool.evictStale urls ks s).closed := by
  intro ks
  induction ks with
  | nil => exact fun h _ => absurd h (List.not_mem_nil k)
  | cons db rest ih =>
    intro s hmem hl
    rw [SqlPool.evictStale]
    by_cases hc : urls.contains db
    · rw [if_pos hc]
      have hne : k ≠ db := by
        rintro rfl
        exact hk (List.mem_of_elem_eq_true hc)
      exact ih ((List.mem_cons.mp hmem).resolve_left hne) hl
    · rw [if_neg hc]
      by_cases hkdb : k = db
      · subst hkdb
        refine ⟨evictStale_lookup_none (evict_lookup_self k s), ?_⟩
        exact evictStale_closed_mono (evict_closed_self hl)
      · have hmem' : k ∈ rest := (List.mem_cons.mp hmem).resolve_left hkdb
        refine ih hmem' ?_
        rw [evict_lookup_other s hkdb]
        exact hl

/-- The add loop of `reconcile` never disturbs an existing entry. -/
theorem addNew_lookup_of_some {w : World} {now : Nat} {k : String} {e : PoolEntry} :
    ∀ {us : List String} {s : SqlPool}, lookupStr s.pool k = some e →
      lookupStr (SqlPool.addNew w now us s).2.pool k = some e := by
  intro us
  induction us with
  | nil => exact fun h => h
  | cons url rest ih =>
    intro s h
    rw [SqlPool.addNew]
    cases hu : lookupStr s.pool url with
    | some e0 => exact ih h
    | none =>
      rw [SqlPool.get, hu]
      by_cases hc : w.constructOk url = true
      · rw [if_pos hc]
        exact ih (lookupStr_append_of_some h)
      · rw [if_neg hc]
        exact h

/-- The add loop adds no key outside its URL list: a key absent from the pool
and from the list stays absent. -/
theorem addNew_lookup_of_none {w : World} {now : Nat} {k : String} :
    ∀ {us : List String} {s : SqlPool}, k ∉ us → lookupStr s.pool k = none →
      lookupStr (SqlPool.addNew w now us s).2.pool k = none := by
  intro us
  induction us with
  | nil => exact fun _ h => h
  | cons url rest ih =>
    intro s hk h
    have hne : k ≠ url := fun hc => hk (hc ▸ List.mem_cons_self url rest)
    have hk' : k ∉ rest := fun hc => hk (List.mem_cons_of_mem url hc)
    rw [SqlPool.addNew]
    cases hu : lookupStr s.pool url with
    | some e0 => exact ih hk' h
    | none =>
      rw [SqlPool.get, hu]
      by_cases hc : w.constructOk url = true
      · rw [if_pos hc]
        apply ih hk'
        rw [lookupStr_append_of_none h, lookupStr, if_neg fun hc2 => hne hc2.symm]
        rfl
      · rw [if_neg hc]
        exact h

/-- The add loop never forgets an already-closed client. -/
theorem addNew_closed_mono {w : World} {now : Nat} {x : Nat} :
    ∀ {us : List String} {s : SqlPool}, x ∈ s.closed →
      x ∈ (SqlPool.addNew w now us s).2.closed := by
  intro us
  induction us with
  | nil => exact fun h => h
  | cons url rest ih =>
    intro s h
    rw [SqlPool.addNew]
    cases hu : lookupStr s.pool url with
    | some e0 => exact ih h
    | none =>
      rw [SqlPool.get, hu]
      by_cases hc : w.constructOk url = true
      · rw [if_pos hc]
        exact ih h
      · rw [if_neg hc]
        exact h

/-- When every construction succeeds, the add loop raises no error and ends
with every URL of its list pooled. -/
theorem addNew_ensures {w : World} {now : Nat} :
    ∀ {us : List String} {s : SqlPool}, (∀ u ∈ us, w.constructOk u = true) →
      (SqlPool.addNew w now us s).1 = none ∧
      ∀ u ∈ us, ∃ e, lookupStr (SqlPool.addNew w now us s).2.pool u = some e := by
  intro us
  induction us with
  | nil => exact fun _ => ⟨rfl, by simp⟩
  | cons url rest ih =>
    intro s hok
    have hok' : ∀ u ∈ rest, w.constructOk u = true :=
      fun u hu => hok u (List.mem_cons_of_mem url hu)
    rw [SqlPool.addNew]
    cases hu : lookupStr s.pool url with
    | some e0 =>
      obtain ⟨h1, h2⟩ := ih (s := s) hok'
      refine ⟨h1, fun u hmem => ?_⟩
      rcases List.mem_cons.mp hmem with rfl | hmem'
      · exact ⟨e0, addNew_lookup_of_some hu⟩
      · exact h2 u hmem'
    | none =>
      rw [SqlPool.get, hu, if_pos (hok url (List.mem_cons_self url rest))]
      set s1 : SqlPool :=
        { s with pool := s.pool ++ [(url, { client := s.nextClient, lastUsed := now })],
                 nextClient := s.nextClient + 1 } with hs1
      obtain ⟨h1, h2⟩ := ih (s := s1) hok'
      refine ⟨h1, fun u hmem => ?_⟩
      rcases List.mem_cons.mp hmem with rfl | hmem'
      · refine ⟨{ client := s.nextClient, lastUsed := now }, addNew_lookup_of_some ?_⟩
        rw [hs1]
        rw [lookupStr_append_of_none hu, lookupStr, if_pos rfl]
      · exact h2 u hmem'

/-- C2 counterexample: `SqlPool.get` runs no liveness probe.  With a world
whose backend for key `u` is dead (`live "u" = false`) but whose client
construction succeeds, the source's `get` on an empty pool succeeds and
caches an entry for `u`, while the spec-modelled probing version fails
`ConnectionFailure` and leaves the pool unchanged — so probe failure neither
surfaces as an error nor prevents caching. -/
theorem get_caches_entry_despite_dead_backend :
    (World.mk (fun _ => true) (fun _ => false)).live "u" = false ∧
    (SqlPool.get (World.mk (fun _ => true) (fun _ => false)) 5 "u"
      (SqlPool.make 60000)).1 = .ok 0 ∧
    lookupStr (SqlPool.get (World.mk (fun _ => true) (fun _ => false)) 5 "u"
      (SqlPool.make 60000)).2.pool "u" = some (PoolEntry.mk 0 5) ∧
    SqlPool.getSpecWithProbe (World.mk (fun _ => true) (fun _ => false)) 5 "u"
      (SqlPool.make 60000) = (.error .connectionFailure, SqlPool.make 60000) :=
  ⟨rfl, rfl, rfl, rfl⟩

/-- C2 (amended): on a cache miss `get` constructs a client and inserts the
entry without any liveness probe and returns the handle; when client
construction itself throws, the error propagates and no entry is cached (the
pool state is exactly the pre-call one). -/
theorem get_miss_inserts_without_probe (w1 w2 : World) (now : Nat) (db : String)
    (s : SqlPool)
    (hmiss : lookupStr s.pool db = none)
    (h1 : w1.constructOk db = true)
    (h2 : w2.constructOk db = false) :
    SqlPool.get w1 now db s =
      (.ok s.nextClient,
        { s with pool := s.pool ++ [(db, PoolEntry.mk s.nextClient now)],
                 nextClient := s.nextClient + 1 }) ∧
    SqlPool.get w2 now db s = (.error .connectionFailure, s) := by
  rw [SqlPool.get, SqlPool.get, hmiss, if_pos h1, if_neg (by rw [h2]; exact Bool.false_ne_true)]
  exact ⟨rfl, rfl⟩

/-- C2 witness: the amended statement at a concrete key, empty pool, one
world that constructs and one that throws. -/
theorem get_miss_inserts_without_probe_witness :
    (lookupStr (SqlPool.make 60000).pool "u" = none ∧
     (World.mk (fun _ => true) (fun _ => true)).constructOk "u" = true ∧
     (World.mk (fun _ => false) (fun _ => true)).constructOk "u" = false) ∧
    (SqlPool.get (World.mk (fun _ => true) (fun _ => true)) 7 "u" (SqlPool.make 60000) =
      (.ok (SqlPool.make 60000).nextClient,
        { SqlPool.make 60000 with
            pool := (SqlPool.make 60000).pool ++
              [("u", PoolEntry.mk (SqlPool.make 60000).nextClient 7)],
            nextClient := (SqlPool.make 60000).nextClient + 1 }) ∧
     SqlPool.get (World.mk (fun _ => false) (fun _ => true)) 7 "u" (SqlPool.make 60000) =
      (.error .connectionFailure, SqlPool.make 60000)) :=
  ⟨⟨rfl, rfl, rfl⟩,
   get_miss_inserts_without_probe (World.mk (fun _ => true) (fun _ => true))
     (World.mk (fun _ => false) (fun _ => true)) 7 "u" (SqlPool.make 60000)
     rfl rfl rfl⟩

/-- C3 counterexample: `reconcile` takes eager action for configured keys
that are not yet pooled.  Starting from an empty pool, reconciling with a
one-database configuration creates a pool entry for its URL, so the pooled
keys after reconcile are not a subset of the (empty) pooled keys before. -/
theorem reconcile_eagerly_creates_counterexample :
    (SqlPool.make 60000).pool.map Prod.fst = [] ∧
    (SqlPool.reconcile (World.mk (fun _ => true) (fun _ => true)) 0
        (Config.mk [("a", DbEntry.mk "postgres://h/one" 60000)] false)
        (SqlPool.make 60000)).2.pool.map Prod.fst = ["postgres://h/one"] ∧
    ¬ (∀ k ∈ (SqlPool.reconcile (World.mk (fun _ => true) (fun _ => true)) 0
        (Config.mk [("a", DbEntry.mk "postgres://h/one" 60000)] false)
        (SqlPool.make 60000)).2.pool.map Prod.fst,
        k ∈ (SqlPool.make 60000).pool.map Prod.fst) :=
  ⟨rfl, rfl, by decide⟩

/-- C3 (amended): `reconcile` eagerly creates an entry (via `get`) for every
configured URL that is not yet pooled; when all constructions succeed it
raises no error and afterwards the pooled keys are exactly the configured
URLs — newly added databases are not left for a lazy later `get`. -/
theorem reconcile_pools_exactly_configured_urls (w : World) (now : Nat)
    (cfg : Config) (s : SqlPool)
    (hok : ∀ u ∈ cfg.databases.map (fun nd => nd.2.url), w.constructOk u = true) :
    (SqlPool.reconcile w now cfg s).1 = none ∧
    ∀ k, (∃ e, lookupStr (SqlPool.reconcile w now cfg s).2.pool k = some e) ↔
      k ∈ cfg.databases.map fun nd => nd.2.url := by
  rw [SqlPool.reconcile]
  obtain ⟨h1, h2⟩ := addNew_ensures
    (s := SqlPool.evictStale (cfg.databases.map fun nd => nd.2.url)
      (s.pool.map Prod.fst) s) hok
  refine ⟨h1, fun k => ⟨?_, fun hk => h2 k hk⟩⟩
  rintro ⟨e, he⟩
  by_contra hk
  cases h0 : lookupStr s.pool k with
  | none =>
    rw [addNew_lookup_of_none hk (evictStale_lookup_none h0)] at he
    exact Option.noConfusion he
  | some e0 =>
    have hmem := lookup_some_mem_keys h0
    obtain ⟨ha, _⟩ := evictStale_evicts hk hmem h0
    rw [addNew_lookup_of_none hk ha] at he
    exact Option.noConfusion he

/-- C3 witness: the amended statement at a pool holding one stale key and a
configuration with one fresh URL. -/
theorem reconcile_pools_exactly_configured_urls_witness :
    (∀ u ∈ (Config.mk [("a", DbEntry.mk "postgres://h/one" 60000)] false).databases.map
        (fun nd => nd.2.url),
      (World.mk (fun _ => true) (fun _ => true)).constructOk u = true) ∧
    ((SqlPool.reconcile (World.mk (fun _ => true) (fun _ => true)) 3
        (Config.mk [("a", DbEntry.mk "postgres://h/one" 60000)] false)
        (SqlPool.mk [("postgres://h/stale", PoolEntry.mk 0 0)] 60000 1 [])).1 = none ∧
     ∀ k, (∃ e, lookupStr (SqlPool.reconcile (World.mk (fun _ => true) (fun _ => true)) 3
        (Config.mk [("a", DbEntry.mk "postgres://h/one" 60000)] false)
        (SqlPool.mk [("postgres://h/stale", PoolEntry.mk 0 0)] 60000 1 [])).2.pool k = some e) ↔
      k ∈ (Config.mk [("a", DbEntry.mk "postgres://h/one" 60000)] false).databases.map
        fun nd => nd.2.url) :=
  ⟨by decide,
   reconcile_pools_exactly_configured_urls (World.mk (fun _ => true) (fun _ => true)) 3
     (Config.mk [("a", DbEntry.mk "postgres://h/one" 60000)] false)
     (SqlPool.mk [("postgres://h/stale", PoolEntry.mk 0 0)] 60000 1 [])
     (by decide)⟩

/-- C4 counterexample: the idle-eviction TTL is not per entry and not taken
from the descriptor.  A configuration gives the descriptor of URL `u` a ttl
of 1000000 ms, but the pool was constructed with `new SqlPool(100)`; the
entry for `u` is created (last used) at time 0, and a reaper tick at time
201 — idle time 201, far within the descriptor's TTL — evicts it, because
the tick compares against the pool-wide `ttl` field of 100. -/
theorem reaper_ignores_descriptor_ttl_counterexample :
    lookupStr (Config.mk [("a", DbEntry.mk "u" 1000000)] false).databases "a" =
      some (DbEntry.mk "u" 1000000) ∧
    lookupStr (SqlPool.get (World.mk (fun _ => true) (fun _ => true)) 0 "u"
        (SqlPool.make 100)).2.pool "u" = some (PoolEntry.mk 0 0) ∧
    ((201 : ℚ) - 0 < 1000000) ∧
    lookupStr (SqlPool.reaperTick 201
        (SqlPool.get (World.mk (fun _ => true) (fun _ => true)) 0 "u"
          (SqlPool.make 100)).2).pool "u" = none :=
  ⟨rfl, rfl, by norm_num, rfl⟩

/-- C4 (amended): the reaper's TTL is the single pool-wide `ttl` field fixed
at pool construction (default 60000, changeable only via `setTTL`);
descriptors' ttl values are never consulted.  One reaper tick at time `now`
keeps exactly the entries whose idle time does not exceed that pool-wide
TTL: an entry survives the tick unchanged if and only if it was present and
`lastUsed + ttl < now` fails; the tick interval does not enter the
criterion. -/
theorem reaperTick_keeps_iff (now : Nat) (s : SqlPool) (k : String) (e : PoolEntry) :
    (k, e) ∈ (SqlPool.reaperTick now s).pool ↔
      (k, e) ∈ s.pool ∧ ¬ (e.lastUsed + s.ttl < now) := by
  rw [SqlPool.reaperTick]
  simp [List.mem_filter]

/-- C6: `reconcile(cfg)` evicts every pooled key that is not the URL of any
descriptor of `cfg` (closing its client) and leaves the entry of every
pooled key that is still a configured URL exactly as it was. -/
theorem reconcile_evicts_absent_preserves_unchanged (w : World) (now : Nat)
    (cfg : Config) (s : SqlPool) (k1 k2 : String) (e1 e2 : PoolEntry)
    (hk1 : lookupStr s.pool k1 = some e1)
    (h1 : k1 ∉ cfg.databases.map fun nd => nd.2.url)
    (hk2 : lookupStr s.pool k2 = some e2)
    (h2 : k2 ∈ cfg.databases.map fun nd => nd.2.url) :
    lookupStr (SqlPool.reconcile w now cfg s).2.pool k1 = none ∧
    e1.client ∈ (SqlPool.reconcile w now cfg s).2.closed ∧
    lookupStr (SqlPool.reconcile w now cfg s).2.pool k2 = some e2 := by
  rw [SqlPool.reconcile]
  have hmem1 : k1 ∈ s.pool.map Prod.fst := lookup_some_mem_keys hk1
  obtain ⟨ha, hb⟩ := evictStale_evicts h1 hmem1 hk1
  refine ⟨addNew_lookup_of_none h1 ha, addNew_closed_mono hb, ?_⟩
  apply addNew_lookup_of_some
  rw [evictStale_lookup_in_urls h2]
  exact hk2

/-- C6 witness: a pool with a stale key and a kept key, reconciled against a
configuration retaining only the kept URL. -/
theorem reconcile_evicts_absent_preserves_unchanged_witness :
    (lookupStr (SqlPool.mk [("postgres://h/old", PoolEntry.mk 0 0),
                            ("postgres://h/keep", PoolEntry.mk 1 4)] 60000 2 []).pool
        "postgres://h/old" = some (PoolEntry.mk 0 0) ∧
     "postgres://h/old" ∉ (Config.mk [("k", DbEntry.mk "postgres://h/keep" 60000)]
        false).databases.map (fun nd => nd.2.url) ∧
     lookupStr (SqlPool.mk [("postgres://h/old", PoolEntry.mk 0 0),
                            ("postgres://h/keep", PoolEntry.mk 1 4)] 60000 2 []).pool
        "postgres://h/keep" = some (PoolEntry.mk 1 4) ∧
     "postgres://h/keep" ∈ (Config.mk [("k", DbEntry.mk "postgres://h/keep" 60000)]
        false).databases.map (fun nd => nd.2.url)) ∧
    (lookupStr (SqlPool.reconcile (World.mk (fun _ => true) (fun _ => true)) 9
        (Config.mk [("k", DbEntry.mk "postgres://h/keep" 60000)] false)
        (SqlPool.mk [("postgres://h/old", PoolEntry.mk 0 0),
                     ("postgres://h/keep", PoolEntry.mk 1 4)] 60000 2 [])).2.pool
        "postgres://h/old" = none ∧
     (PoolEntry.mk 0 0).client ∈ (SqlPool.reconcile (World.mk (fun _ => true) (fun _ => true)) 9
        (Config.mk [("k", DbEntry.mk "postgres://h/keep" 60000)] false)
        (SqlPool.mk [("postgres://h/old", PoolEntry.mk 0 0),
                     ("postgres://h/keep", PoolEntry.mk 1 4)] 60000 2 [])).2.closed ∧
     lookupStr (SqlPool.reconcile (World.mk (fun _ => true) (fun _ => true)) 9
        (Config.mk [("k", DbEntry.mk "postgres://h/keep" 60000)] false)
        (SqlPool.mk [("postgres://h/old", PoolEntry.mk 0 0),
                     ("postgres://h/keep", PoolEntry.mk 1 4)] 60000 2 [])).2.pool
        "postgres://h/keep" = some (PoolEntry.mk 1 4)) :=
  ⟨⟨rfl, by decide, rfl, by decide⟩,
   reconcile_evicts_absent_preserves_unchanged (World.mk (fun _ => true) (fun _ => true)) 9
     (Config.mk [("k", DbEntry.mk "postgres://h/keep" 60000)] false)
     (SqlPool.mk [("postgres://h/old", PoolEntry.mk 0 0),
                  ("postgres://h/keep", PoolEntry.mk 1 4)] 60000 2 [])
     "postgres://h/old" "postgres://h/keep" (PoolEntry.mk 0 0) (PoolEntry.mk 1 4)
     rfl (by decide) rfl (by decide)⟩

/-- C9: the pool is keyed by the URL strings passed to `get`, while the
`pg_db_update` and `pg_db_remove` handlers call `pool.evict(name)` with the
database name.  Whenever that name is not itself a pooled URL, the evict
call leaves the pool state completely unchanged, so the handler's pool
effect equals plain reconciliation — and a pooled URL no longer present in
the updated configuration is removed only by that subsequent
`reconcile(updatedConfig)`. -/
theorem evict_by_name_noop_then_reconcile_cleans (w : World) (now : Nat)
    (name : String) (cfg : Config) (s : SqlPool) (u : String) (e : PoolEntry)
    (hname : lookupStr s.pool name = none)
    (hu : lookupStr s.pool u = some e)
    (hstale : u ∉ cfg.databases.map fun nd => nd.2.url) :
    SqlPool.evict name s = s ∧
    pgDbUpdatePoolEffect w now name cfg s = SqlPool.reconcile w now cfg s ∧
    lookupStr (pgDbUpdatePoolEffect w now name cfg s).2.pool u = none := by
  have hnoop : SqlPool.evict name s = s := by rw [SqlPool.evict, hname]
  have heq : pgDbUpdatePoolEffect w now name cfg s = SqlPool.reconcile w now cfg s := by
    rw [pgDbUpdatePoolEffect, hnoop]
  refine ⟨hnoop, heq, ?_⟩
  rw [heq, SqlPool.reconcile]
  have hmem : u ∈ s.pool.map Prod.fst := lookup_some_mem_keys hu
  obtain ⟨ha, _⟩ := evictStale_evicts hstale hmem hu
  exact addNew_lookup_of_none hstale ha

/-- C9 witness: the handler updates database `mydb` (whose old URL is the
pooled key) and the pool holds no entry under the name `mydb` itself; the
evict is a no-op and the reconcile against the updated configuration evicts
the old URL. -/
theorem evict_by_name_noop_then_reconcile_cleans_witness :
    (lookupStr (SqlPool.mk [("postgres://h/oldurl", PoolEntry.mk 0 2)] 60000 1 []).pool
        "mydb" = none ∧
     lookupStr (SqlPool.mk [("postgres://h/oldurl", PoolEntry.mk 0 2)] 60000 1 []).pool
        "postgres://h/oldurl" = some (PoolEntry.mk 0 2) ∧
     "postgres://h/oldurl" ∉ (Config.mk [("mydb", DbEntry.mk "postgres://h/newurl" 60000)]
        false).databases.map (fun nd => nd.2.url)) ∧
    (SqlPool.evict "mydb" (SqlPool.mk [("postgres://h/oldurl", PoolEntry.mk 0 2)] 60000 1 []) =
       SqlPool.mk [("postgres://h/oldurl", PoolEntry.mk 0 2)] 60000 1 [] ∧
     pgDbUpdatePoolEffect (World.mk (fun _ => true) (fun _ => true)) 11 "mydb"
        (Config.mk [("mydb", DbEntry.mk "postgres://h/newurl" 60000)] false)
        (SqlPool.mk [("postgres://h/oldurl", PoolEntry.mk 0 2)] 60000 1 []) =
       SqlPool.reconcile (World.mk (fun _ => true) (fun _ => true)) 11
        (Config.mk [("mydb", DbEntry.mk "postgres://h/newurl" 60000)] false)
        (SqlPool.mk [("postgres://h/oldurl", PoolEntry.mk 0 2)] 60000 1 []) ∧
     lookupStr (pgDbUpdatePoolEffect (World.mk (fun _ => true) (fun _ => true)) 11 "mydb"
        (Config.mk [("mydb", DbEntry.mk "postgres://h/newurl" 60000)] false)
        (SqlPool.mk [("postgres://h/oldurl", PoolEntry.mk 0 2)] 60000 1 [])).2.pool
        "postgres://h/oldurl" = none) :=
  ⟨⟨rfl, rfl, by decide⟩,
   evict_by_name_noop_then_reconcile_cleans (World.mk (fun _ => true) (fun _ => true)) 11
     "mydb" (Config.mk [("mydb", DbEntry.mk "postgres://h/newurl" 60000)] false)
     (SqlPool.mk [("postgres://h/oldurl", PoolEntry.mk 0 2)] 60000 1 [])
     "postgres://h/oldurl" (PoolEntry.mk 0 2) rfl rfl (by decide)⟩

/-- C10: behaviour of `redactCredentials` and its use by the tools.  For a
URL parsing with a non-empty password, the result is the same URL serialized
with the password component replaced by `***`; for a URL with no password,
and for a string that fails to parse as a URL, the input is returned
unchanged.  The `get_url` tool returns the resolved entry's URL passed
through `redactCredentials`, and `pg_db_list` passes every configured URL
through `redactCredentials`. -/
theorem redactCredentials_and_tools (url1 url2 url3 : String) (u1 u2 : UrlParts)
    (cfg : Config) (db : Option String) (nm : String) (e : DbEntry)
    (h1 : parseURL url1 = some u1) (h1p : u1.password ≠ "")
    (h2 : parseURL url2 = some u2) (h2p : u2.password = "")
    (h3 : parseURL url3 = none)
    (hres : resolveDatabaseName cfg db = .ok nm)
    (hent : lookupStr cfg.databases nm = some e)
    (hev : validateDbEntry e = true) :
    redactCredentials url1 = UrlParts.toUrlString { u1 with password := "***" } ∧
    redactCredentials url2 = url2 ∧
    redactCredentials url3 = url3 ∧
    getUrlTool cfg db = .ok (redactCredentials e.url) ∧
    pgDbListTool cfg = cfg.databases.map fun nd => (nd.1, redactCredentials nd.2.url, nd.2.ttl) := by
  refine ⟨?_, ?_, ?_, ?_, rfl⟩
  · simp [redactCredentials, h1, h1p]
  · simp [redactCredentials, h2, h2p]
  · simp [redactCredentials, h3]
  · simp [getUrlTool, hres, getConfigEntry, hent, hev, Except.map]

/-- C10 witness: the three redaction cases at concrete strings, and the two
tools on a one-entry configuration whose URL carries a password. -/
theorem redactCredentials_and_tools_witness :
    (parseURL "postgres://u:p@h:5432/d" =
       some (UrlParts.mk "postgres" "u" "p" "h:5432" "/d") ∧
     (UrlParts.mk "postgres" "u" "p" "h:5432" "/d").password ≠ "" ∧
     parseURL "postgres://h/d" = some (UrlParts.mk "postgres" "" "" "h" "/d") ∧
     (UrlParts.mk "postgres" "" "" "h" "/d").password = "" ∧
     parseURL "not a url" = none ∧
     resolveDatabaseName (Config.mk [("main", DbEntry.mk "postgres://u:p@h:5432/d" 60000)]
        false) none = .ok "main" ∧
     lookupStr (Config.mk [("main", DbEntry.mk "postgres://u:p@h:5432/d" 60000)]
        false).databases "main" = some (DbEntry.mk "postgres://u:p@h:5432/d" 60000) ∧
     validateDbEntry (DbEntry.mk "postgres://u:p@h:5432/d" 60000) = true) ∧
    (redactCredentials "postgres://u:p@h:5432/d" =
       UrlParts.toUrlString { UrlParts.mk "postgres" "u" "p" "h:5432" "/d" with
                                password := "***" } ∧
     redactCredentials "postgres://h/d" = "postgres://h/d" ∧
     redactCredentials "not a url" = "not a url" ∧
     getUrlTool (Config.mk [("main", DbEntry.mk "postgres://u:p@h:5432/d" 60000)] false)
        none = .ok (redactCredentials "postgres://u:p@h:5432/d") ∧
     pgDbListTool (Config.mk [("main", DbEntry.mk "postgres://u:p@h:5432/d" 60000)] false) =
       (Config.mk [("main", DbEntry.mk "postgres://u:p@h:5432/d" 60000)]
          false).databases.map fun nd => (nd.1, redactCredentials nd.2.url, nd.2.ttl)) :=
  ⟨⟨by decide, by decide, by decide, by decide, by decide, rfl, by decide, by decide⟩,
   redactCredentials_and_tools "postgres://u:p@h:5432/d" "postgres://h/d" "not a url"
     (UrlParts.mk "postgres" "u" "p" "h:5432" "/d") (UrlParts.mk "postgres" "" "" "h" "/d")
     (Config.mk [("main", DbEntry.mk "postgres://u:p@h:5432/d" 60000)] false) none "main"
     (DbEntry.mk "postgres://u:p@h:5432/d" 60000)
     (by decide) (by decide) (by decide) (by decide) (by decide) rfl (by decide) (by decide)⟩
